import Mathlib

/-!
Shallow embedding of the rule-based number game (`main.py`): the value object
`RuleValue`, rule metadata `RuleEntry`, the `ConflictChecker`, the six factory
constructors in `Rules`, and the evaluation core of `RuleGame.run_iteration`
(rule-map construction, rendering, and the ban cascade).

Conventions: Python `int` is `ℤ`; the exception raised by `RuleValue.render`
is modelled as `Except ℤ` carrying the banned number; `Rules.divisible`'s
construction-time `ValueError` is modelled as `Except String`; the menu
handler `remove_rule`'s rejection of an out-of-range index is modelled as
`Option`.
-/

/-- A parameter value stored in a rule's `params` mapping (`int` or `str`). -/
inductive ParamVal where
  | int (n : ℤ)
  | str (s : String)
deriving DecidableEq

/-- `RuleValue`: a single number's transformation state. -/
structure RuleValue where
  number : ℤ
  tags : List String
  banned : Bool
deriving DecidableEq

/-- `RuleValue.tag`: append `text` to the tag sequence. -/
def RuleValue.tag (rv : RuleValue) (text : String) : RuleValue :=
  { rv with tags := rv.tags ++ [text] }

/-- `RuleValue.ban`: set the banned flag. -/
def RuleValue.ban (rv : RuleValue) : RuleValue :=
  { rv with banned := true }

/-- `RuleValue.render`: raises (here: `Except.error` carrying the number) when
banned; otherwise the tags joined by single spaces if non-empty, else the
decimal string of the number. -/
def RuleValue.render (rv : RuleValue) : Except ℤ String :=
  if rv.banned then Except.error rv.number
  else Except.ok (if rv.tags ≠ [] then String.intercalate " " rv.tags else toString rv.number)

/-- `RuleEntry`: a rule function paired with metadata (kind, params,
description).  `params` models the Python dict; each factory builds the keys
of a given kind in one fixed order, so list equality coincides with dict
equality whenever the kinds agree (the only case the checker compares). -/
structure RuleEntry where
  kind : String
  params : List (String × ParamVal)
  description : String
  fn : RuleValue → RuleValue

/-- Integer parameter access `r.params[key]`; factory-built rules always carry
the keys that are read, so the `0` default of this total stand-in for the
dict access is never reached on them. -/
def RuleEntry.paramInt (r : RuleEntry) (key : String) : ℤ :=
  match r.params.lookup key with
  | some (ParamVal.int n) => n
  | _ => 0

/-- `ConflictChecker.banned_numbers`: the set of numbers targeted by active
`ban` rules. -/
def ConflictChecker.bannedNumbers (active : List RuleEntry) : Finset ℤ :=
  ((active.filter (fun r => r.kind == "ban")).map (fun r => r.paramInt "num")).toFinset

/-- The duplicate-conflict message for an existing rule. -/
def dupMessage (existing : RuleEntry) : String :=
  "An identical rule already exists → [" ++ existing.description ++ "]"

/-- `ConflictChecker.check`: returns a conflict message, or `none` if the rule
is clean.  The sequential early returns of the source (duplicate, then
replace-targets-banned, then swap-with-banned checking side `a` before `b`)
become a match on the first duplicate followed by an if-chain. -/
def ConflictChecker.check (active : List RuleEntry) (proposed : RuleEntry) : Option String :=
  match active.find? (fun e => decide (e.kind = proposed.kind ∧ e.params = proposed.params)) with
  | some existing => some (dupMessage existing)
  | none =>
    if proposed.kind = "replace" ∧
        proposed.paramInt "num" ∈ ConflictChecker.bannedNumbers active then
      some (toString (proposed.paramInt "num") ++
        " is already banned — a replace rule for it would never fire")
    else if proposed.kind = "swap" ∧
        proposed.paramInt "a" ∈ ConflictChecker.bannedNumbers active then
      some (toString (proposed.paramInt "a") ++
        " is already banned — it cannot participate in a swap")
    else if proposed.kind = "swap" ∧
        proposed.paramInt "b" ∈ ConflictChecker.bannedNumbers active then
      some (toString (proposed.paramInt "b") ++
        " is already banned — it cannot participate in a swap")
    else none

/-- Factory `Rules.swap(a, b)`. -/
def Rules.swap (a b : ℤ) : RuleEntry where
  kind := "swap"
  params := [("a", ParamVal.int a), ("b", ParamVal.int b)]
  description := s!"Swap {a} ↔ {b}"
  fn := fun rv =>
    if rv.number = a then { rv with number := b }
    else if rv.number = b then { rv with number := a }
    else rv

/-- Factory `Rules.replace(num, text)`. -/
def Rules.replace (num : ℤ) (text : String) : RuleEntry where
  kind := "replace"
  params := [("num", ParamVal.int num), ("text", ParamVal.str text)]
  description := s!"Replace {num} → {text}"
  fn := fun rv => if rv.number = num then rv.tag text else rv

/-- Factory `Rules.ban(num)`. -/
def Rules.ban (num : ℤ) : RuleEntry where
  kind := "ban"
  params := [("num", ParamVal.int num)]
  description := s!"Ban {num}"
  fn := fun rv => if rv.number = num then rv.ban else rv

/-- Factory `Rules.divisible(divisor, text)`: fails (`ValueError` in the
source) at construction time when the divisor is zero.  `n % divisor = 0`
agrees between Python's `%` and `Int.emod` (both mean `divisor ∣ n`). -/
def Rules.divisible (divisor : ℤ) (text : String) : Except String RuleEntry :=
  if divisor = 0 then Except.error "Divisor cannot be zero."
  else Except.ok
    { kind := "divisible"
      params := [("divisor", ParamVal.int divisor), ("text", ParamVal.str text)]
      description := s!"Divisible by {divisor} → {text}"
      fn := fun rv => if rv.number % divisor = 0 then rv.tag text else rv }

/-- Factory `Rules.odd(text)`. -/
def Rules.odd (text : String) : RuleEntry where
  kind := "odd"
  params := [("text", ParamVal.str text)]
  description := s!"Odd → {text}"
  fn := fun rv => if rv.number % 2 ≠ 0 then rv.tag text else rv

/-- Factory `Rules.even(text)`. -/
def Rules.even (text : String) : RuleEntry where
  kind := "even"
  params := [("text", ParamVal.str text)]
  description := s!"Even → {text}"
  fn := fun rv => if rv.number % 2 = 0 then rv.tag text else rv

/-- `RuleGame.try_add`: run the conflict check; on a conflict report failure
and leave the collection unchanged, otherwise append the rule. -/
def try_add (rules : List RuleEntry) (entry : RuleEntry) : Bool × List RuleEntry :=
  match ConflictChecker.check rules entry with
  | some _ => (false, rules)
  | none => (true, rules ++ [entry])

/-- `RuleGame.remove_rule`: reject (here: `none`) unless the 1-based index is
within `1..count`, else pop and return the chosen rule with the remaining
collection. -/
def remove_rule (rules : List RuleEntry) (choice : ℤ) : Option (RuleEntry × List RuleEntry) :=
  if 1 ≤ choice ∧ choice ≤ (rules.length : ℤ) then
    match rules[(choice - 1).toNat]? with
    | some r => some (r, rules.eraseIdx (choice - 1).toNat)
    | none => none
  else none

/-- Python `range(a, b + 1)` as a list of integers. -/
def intRange (a b : ℤ) : List ℤ :=
  (List.range (b + 1 - a).toNat).map (fun (i : ℕ) => a + (i : ℤ))

/-- The evaluator's `rule_map`: number → governing rule. -/
def RuleMap : Type := ℤ → Option RuleEntry

/-- The empty `rule_map`. -/
def emptyMap : RuleMap := fun _ => none

/-- `rule_map[k] = r`. -/
def mapInsert (m : RuleMap) (k : ℤ) (r : RuleEntry) : RuleMap :=
  fun q => if q = k then some r else m q

/-- The `while next_num in banned_numbers` scan, fuel-recursive; the fuel
`banned.card + 1` of `nextNonBanned` always suffices (`scan_spec`). -/
def scan (banned : Finset ℤ) : Nat → ℤ → ℤ
  | 0, n => n
  | fuel + 1, n => if n ∈ banned then scan banned fuel (n + 1) else n

/-- The first number `≥ n` that is not banned: the forward scan of the ban
cascade starting at `n`. -/
def nextNonBanned (banned : Finset ℤ) (n : ℤ) : ℤ :=
  scan banned (banned.card + 1) n

/-- One step of the rule-map/banned-set construction loop of
`run_iteration`: `ban` rules feed the banned set; `swap` governs both
endpoints; `replace` governs its target; `divisible`/`odd`/`even` govern
every matching number of the configured range.  Later assignments
overwrite earlier ones. -/
def stepRule (rs re : ℤ) (acc : RuleMap × Finset ℤ) (rule : RuleEntry) : RuleMap × Finset ℤ :=
  if rule.kind = "ban" then
    (acc.1, insert (rule.paramInt "num") acc.2)
  else if rule.kind = "swap" then
    (mapInsert (mapInsert acc.1 (rule.paramInt "a") rule) (rule.paramInt "b") rule, acc.2)
  else if rule.kind = "replace" then
    (mapInsert acc.1 (rule.paramInt "num") rule, acc.2)
  else
    ((intRange rs re).foldl (fun mm n =>
      if rule.kind = "divisible" then
        (if n % rule.paramInt "divisor" = 0 then mapInsert mm n rule else mm)
      else if rule.kind = "odd" then
        (if n % 2 ≠ 0 then mapInsert mm n rule else mm)
      else if rule.kind = "even" then
        (if n % 2 = 0 then mapInsert mm n rule else mm)
      else mm) acc.1, acc.2)

/-- The `rule_map` and `banned_numbers` built by `run_iteration` from the
active collection. -/
def evalState (rules : List RuleEntry) (rs re : ℤ) : RuleMap × Finset ℤ :=
  rules.foldl (stepRule rs re) (emptyMap, (∅ : Finset ℤ))

/-- The governing-rule map component of `evalState`. -/
def ruleMapOf (rules : List RuleEntry) (rs re : ℤ) : RuleMap :=
  (evalState rules rs re).1

/-- The banned-number set component of `evalState`. -/
def bannedOf (rules : List RuleEntry) (rs re : ℤ) : Finset ℤ :=
  (evalState rules rs re).2

/-- A fresh `RuleValue(number=num)` with default fields. -/
def freshValue (n : ℤ) : RuleValue :=
  { number := n, tags := [], banned := false }

/-- `rv = rule_map[num].fn(RuleValue(number=num))` when a governing rule
exists, else the fresh value itself. -/
def appliedValue (m : RuleMap) (num : ℤ) : RuleValue :=
  match m num with
  | some r => r.fn (freshValue num)
  | none => freshValue num

/-- The per-number body of `run_iteration`: apply the governing rule (if any)
to a fresh value, render it (propagating the banned exception), then apply
the post-hoc ban override replacing the result with the decimal string of the
next non-banned number. -/
def computeExpected (m : RuleMap) (banned : Finset ℤ) (num : ℤ) : Except ℤ String :=
  match (appliedValue m num).render with
  | Except.error k => Except.error k
  | Except.ok s =>
      if num ∈ banned then Except.ok (toString (nextNonBanned banned (num + 1)))
      else Except.ok s

/-- `evaluate()`: the number → expected-string mapping computed by
`run_iteration` over the configured range, an exception during rendering
aborting the pass. -/
def evaluate (rules : List RuleEntry) (rs re : ℤ) : Except ℤ (List (ℤ × String)) :=
  (intRange rs re).mapM (fun num =>
    (computeExpected (evalState rules rs re).1 (evalState rules rs re).2 num).map
      (fun s => (num, s)))

/-- Lookup of one number's expected string in `evaluate()`'s mapping. -/
def evaluateAt (rules : List RuleEntry) (rs re n : ℤ) : Option String :=
  match evaluate rules rs re with
  | Except.error _ => none
  | Except.ok l => List.lookup n l

/-- `true` iff the evaluation completed without a `BannedNumberError`. -/
def exceptOk {ε α : Type} (e : Except ε α) : Bool :=
  match e with
  | Except.ok _ => true
  | Except.error _ => false

/-- Collect the successfully constructed rules of a list of factory results. -/
def oks (l : List (Except String RuleEntry)) : List RuleEntry :=
  l.filterMap Except.toOption

/-- A rule built by one of the six factory constructors. -/
def FactoryBuilt (r : RuleEntry) : Prop :=
  (∃ a b, r = Rules.swap a b) ∨ (∃ n t, r = Rules.replace n t) ∨ (∃ n, r = Rules.ban n) ∨
  (∃ d t, Rules.divisible d t = Except.ok r) ∨ (∃ t, r = Rules.odd t) ∨ (∃ t, r = Rules.even t)

/-- Spec-side definition, following the spec's words for the refinement
comparison of the governing-rule map: a rule "can affect" number `n` when it
is a `swap` with `n` as an endpoint, a `replace` targeting `n`, or a
`divisible`/`odd`/`even` whose predicate matches `n` within the configured
range. -/
def targetsB (rs re : ℤ) (r : RuleEntry) (n : ℤ) : Bool :=
  if r.kind = "swap" then decide (n = r.paramInt "a" ∨ n = r.paramInt "b")
  else if r.kind = "replace" then decide (n = r.paramInt "num")
  else if r.kind = "divisible" then decide (n ∈ intRange rs re ∧ n % r.paramInt "divisor" = 0)
  else if r.kind = "odd" then decide (n ∈ intRange rs re ∧ n % 2 ≠ 0)
  else if r.kind = "even" then decide (n ∈ intRange rs re ∧ n % 2 = 0)
  else false

/-- Spec-side definition: the governing rule of `n` is the last rule in
collection order that can affect `n`. -/
def governingRuleSpec (rules : List RuleEntry) (rs re n : ℤ) : Option RuleEntry :=
  rules.reverse.find? (fun r => targetsB rs re r n)

theorem mapInsert_apply (m : RuleMap) (k : ℤ) (r : RuleEntry) (q : ℤ) :
    mapInsert m k r q = if q = k then some r else m q := rfl

theorem foldl_insert_if (r : RuleEntry) (p : ℤ → Prop) [DecidablePred p] (n : ℤ) :
    ∀ (l : List ℤ) (m : RuleMap),
      (l.foldl (fun mm k => if p k then mapInsert mm k r else mm) m) n =
        if n ∈ l ∧ p n then some r else m n := by
  intro l
  induction l with
  | nil => intro m; simp
  | cons k t ih =>
    intro m
    simp only [List.foldl_cons]
    rw [ih]
    by_cases hpk : p k
    · rw [if_pos hpk]
      by_cases hnt : n ∈ t ∧ p n
      · rw [if_pos hnt, if_pos ⟨List.mem_cons_of_mem k hnt.1, hnt.2⟩]
      · rw [if_neg hnt, mapInsert_apply]
        by_cases hnk : n = k
        · subst hnk
          rw [if_pos rfl, if_pos ⟨List.mem_cons_self n t, hpk⟩]
        · rw [if_neg hnk]
          have hno : ¬(n ∈ k :: t ∧ p n) := by
            intro h
            rcases List.mem_cons.mp h.1 with h1 | h1
            · exact hnk h1
            · exact hnt ⟨h1, h.2⟩
          rw [if_neg hno]
    · rw [if_neg hpk]
      by_cases hnt : n ∈ t ∧ p n
      · rw [if_pos hnt, if_pos ⟨List.mem_cons_of_mem k hnt.1, hnt.2⟩]
      · rw [if_neg hnt]
        have hno : ¬(n ∈ k :: t ∧ p n) := by
          intro h
          rcases List.mem_cons.mp h.1 with h1 | h1
          · exact hpk (h1 ▸ h.2)
          · exact hnt ⟨h1, h.2⟩
        rw [if_neg hno]

theorem stepRule_fst (rs re : ℤ) (acc : RuleMap × Finset ℤ) (r : RuleEntry) (n : ℤ) :
    (stepRule rs re acc r).1 n = if targetsB rs re r n then some r else acc.1 n := by
  by_cases h1 : r.kind = "ban"
  · simp [stepRule, targetsB, h1]
  · by_cases h2 : r.kind = "swap"
    · by_cases hb : n = r.paramInt "b"
      · simp [stepRule, targetsB, h1, h2, mapInsert, hb]
      · by_cases ha : n = r.paramInt "a"
        · simp [stepRule, targetsB, h1, h2, mapInsert, ha, hb]
        · simp [stepRule, targetsB, h1, h2, mapInsert, ha, hb]
    · by_cases h3 : r.kind = "replace"
      · by_cases hn : n = r.paramInt "num"
        · simp [stepRule, targetsB, h1, h2, h3, mapInsert, hn]
        · simp [stepRule, targetsB, h1, h2, h3, mapInsert, hn]
      · by_cases h4 : r.kind = "divisible"
        · simp only [stepRule, targetsB, h1, h2, h3, h4, if_true, if_false, String.reduceEq,
            reduceIte, decide_eq_true_eq]
          rw [foldl_insert_if r (fun k => k % r.paramInt "divisor" = 0) n (intRange rs re) acc.1]
        · by_cases h5 : r.kind = "odd"
          · simp only [stepRule, targetsB, h1, h2, h3, h4, h5, if_true, if_false,
              String.reduceEq, reduceIte, decide_eq_true_eq]
            rw [foldl_insert_if r (fun k => k % 2 ≠ 0) n (intRange rs re) acc.1]
          · by_cases h6 : r.kind = "even"
            · simp only [stepRule, targetsB, h1, h2, h3, h4, h5, h6, if_true, if_false,
                String.reduceEq, reduceIte, decide_eq_true_eq]
              rw [foldl_insert_if r (fun k => k % 2 = 0) n (intRange rs re) acc.1]
            · simp only [stepRule, targetsB, h1, h2, h3, h4, h5, h6, if_true, if_false,
                String.reduceEq, reduceIte, Bool.false_eq_true]
              have hid : ∀ (l : List ℤ) (m : RuleMap), List.foldl (fun mm (_ : ℤ) => mm) m l = m := by
                intro l
                induction l with
                | nil => intro m; rfl
                | cons a t iht => intro m; exact iht m
              rw [hid]

theorem find?_or_aux (p : RuleEntry → Bool) (r : RuleEntry) :
    ∀ (l : List RuleEntry) (x : Option RuleEntry),
      ((l.find? p).or (if p r then some r else x)) = ((l ++ [r]).find? p).or x := by
  intro l
  induction l with
  | nil =>
    intro x
    by_cases hp : p r
    · simp [List.find?, hp]
    · simp [List.find?, hp]
  | cons a t ih =>
    intro x
    by_cases ha : p a
    · simp [List.find?_cons_of_pos _ ha, List.cons_append]
    · rw [List.find?_cons_of_neg _ ha, List.cons_append, List.find?_cons_of_neg _ ha]
      exact ih x

theorem foldl_stepRule_fst (rs re n : ℤ) :
    ∀ (rules : List RuleEntry) (acc : RuleMap × Finset ℤ),
      (rules.foldl (stepRule rs re) acc).1 n =
        ((rules.reverse.find? (fun r => targetsB rs re r n)).or (acc.1 n)) := by
  intro rules
  induction rules with
  | nil => intro acc; simp
  | cons r rest ih =>
    intro acc
    simp only [List.foldl_cons, List.reverse_cons]
    rw [ih, stepRule_fst]
    exact find?_or_aux (fun r => targetsB rs re r n) r rest.reverse (acc.1 n)

theorem ruleMap_lastWriterWins (rules : List RuleEntry) (rs re n : ℤ) :
    ruleMapOf rules rs re n = governingRuleSpec rules rs re n := by
  unfold ruleMapOf evalState governingRuleSpec
  rw [foldl_stepRule_fst]
  simp [emptyMap]

theorem stepRule_snd (rs re : ℤ) (acc : RuleMap × Finset ℤ) (r : RuleEntry) :
    (stepRule rs re acc r).2 =
      if r.kind = "ban" then insert (r.paramInt "num") acc.2 else acc.2 := by
  by_cases h1 : r.kind = "ban"
  · simp [stepRule, h1]
  · by_cases h2 : r.kind = "swap"
    · simp [stepRule, h1, h2]
    · by_cases h3 : r.kind = "replace"
      · simp [stepRule, h1, h2, h3]
      · simp [stepRule, h1, h2, h3]

theorem foldl_stepRule_snd (rs re : ℤ) :
    ∀ (rules : List RuleEntry) (acc : RuleMap × Finset ℤ),
      (rules.foldl (stepRule rs re) acc).2 =
        rules.foldl (fun s r => if r.kind = "ban" then insert (r.paramInt "num") s else s)
          acc.2 := by
  intro rules
  induction rules with
  | nil => intro acc; rfl
  | cons r rest ih =>
    intro acc
    simp only [List.foldl_cons]
    rw [ih, stepRule_snd]

theorem mem_bannedFold :
    ∀ (rules : List RuleEntry) (s : Finset ℤ) (n : ℤ),
      (n ∈ rules.foldl
          (fun s r => if r.kind = "ban" then insert (r.paramInt "num") s else s) s) ↔
        ((∃ r ∈ rules, r.kind = "ban" ∧ r.paramInt "num" = n) ∨ n ∈ s) := by
  intro rules
  induction rules with
  | nil => intro s n; simp
  | cons r rest ih =>
    intro s n
    simp only [List.foldl_cons]
    rw [ih]
    by_cases hr : r.kind = "ban"
    · rw [if_pos hr]
      simp only [Finset.mem_insert, List.mem_cons]
      constructor
      · rintro (⟨e, he, hk, hn⟩ | h | h)
        · exact Or.inl ⟨e, Or.inr he, hk, hn⟩
        · exact Or.inl ⟨r, Or.inl rfl, hr, h.symm⟩
        · exact Or.inr h
      · rintro (⟨e, he, hk, hn⟩ | h)
        · rcases he with he | he
          · subst he
            exact Or.inr (Or.inl hn.symm)
          · exact Or.inl ⟨e, he, hk, hn⟩
        · exact Or.inr (Or.inr h)
    · rw [if_neg hr]
      simp only [List.mem_cons]
      constructor
      · rintro (⟨e, he, hk, hn⟩ | h)
        · exact Or.inl ⟨e, Or.inr he, hk, hn⟩
        · exact Or.inr h
      · rintro (⟨e, he, hk, hn⟩ | h)
        · rcases he with he | he
          · subst he
            exact absurd hk hr
          · exact Or.inl ⟨e, he, hk, hn⟩
        · exact Or.inr h

theorem mem_bannedOf_iff (rules : List RuleEntry) (rs re n : ℤ) :
    n ∈ bannedOf rules rs re ↔ ∃ r ∈ rules, r.kind = "ban" ∧ r.paramInt "num" = n := by
  unfold bannedOf evalState
  rw [foldl_stepRule_snd, mem_bannedFold]
  simp

/-- A rule function that never flips the banned flag. -/
def BanSafeFn (r : RuleEntry) : Prop :=
  ∀ rv, (r.fn rv).banned = rv.banned

/-- Every rule stored in a rule map preserves the banned flag. -/
def MapBanSafe (m : RuleMap) : Prop :=
  ∀ k r, m k = some r → BanSafeFn r

theorem factory_banSafe (r : RuleEntry) (h : FactoryBuilt r) :
    r.kind = "ban" ∨ BanSafeFn r := by
  rcases h with ⟨a, b, rfl⟩ | ⟨n, t, rfl⟩ | ⟨n, rfl⟩ | ⟨d, t, hd⟩ | ⟨t, rfl⟩ | ⟨t, rfl⟩
  · right
    intro rv
    simp only [Rules.swap]
    split
    · rfl
    · split
      · rfl
      · rfl
  · right
    intro rv
    simp only [Rules.replace]
    split
    · rfl
    · rfl
  · left
    rfl
  · right
    intro rv
    unfold Rules.divisible at hd
    by_cases hz : d = 0
    · rw [if_pos hz] at hd
      exact absurd hd (by simp)
    · rw [if_neg hz] at hd
      have he := Except.ok.inj hd
      rw [← he]
      simp only []
      split
      · rfl
      · rfl
  · right
    intro rv
    simp only [Rules.odd]
    split
    · rfl
    · rfl
  · right
    intro rv
    simp only [Rules.even]
    split
    · rfl
    · rfl

theorem emptyMap_banSafe : MapBanSafe emptyMap := by
  intro q e he
  exact absurd he (by simp [emptyMap])

theorem stepRule_banSafe (rs re : ℤ) (acc : RuleMap × Finset ℤ) (r : RuleEntry)
    (hacc : MapBanSafe acc.1) (hr : FactoryBuilt r) : MapBanSafe (stepRule rs re acc r).1 := by
  intro q e he
  rw [stepRule_fst] at he
  by_cases ht : targetsB rs re r q = true
  · rw [if_pos ht] at he
    injection he with h
    subst h
    rcases factory_banSafe r hr with hban | hsafe
    · exfalso
      simp [targetsB, hban] at ht
    · exact hsafe
  · rw [if_neg ht] at he
    exact hacc q e he

theorem foldl_banSafe (rs re : ℤ) :
    ∀ (rules : List RuleEntry) (acc : RuleMap × Finset ℤ),
      (∀ r ∈ rules, FactoryBuilt r) → MapBanSafe acc.1 →
      MapBanSafe (rules.foldl (stepRule rs re) acc).1 := by
  intro rules
  induction rules with
  | nil => intro acc _ h; exact h
  | cons r rest ih =>
    intro acc hall hacc
    simp only [List.foldl_cons]
    exact ih (stepRule rs re acc r) (fun e he => hall e (List.mem_cons_of_mem r he))
      (stepRule_banSafe rs re acc r hacc (hall r (List.mem_cons_self r rest)))

theorem evalState_banSafe (rules : List RuleEntry) (rs re : ℤ)
    (h : ∀ r ∈ rules, FactoryBuilt r) : MapBanSafe (evalState rules rs re).1 :=
  foldl_banSafe rs re rules (emptyMap, (∅ : Finset ℤ)) h emptyMap_banSafe

theorem appliedValue_not_banned (m : RuleMap) (num : ℤ) (hm : MapBanSafe m) :
    (appliedValue m num).banned = false := by
  unfold appliedValue
  cases hmn : m num with
  | none => rfl
  | some r => exact (hm num r hmn (freshValue num)).trans rfl

theorem render_of_not_banned (rv : RuleValue) (h : rv.banned = false) :
    rv.render =
      Except.ok (if rv.tags ≠ [] then String.intercalate " " rv.tags else toString rv.number) := by
  unfold RuleValue.render
  rw [h]
  simp

theorem computeExpected_eq_ok (m : RuleMap) (banned : Finset ℤ) (num : ℤ) (s : String)
    (h : (appliedValue m num).render = Except.ok s) :
    computeExpected m banned num =
      if num ∈ banned then Except.ok (toString (nextNonBanned banned (num + 1)))
      else Except.ok s := by
  unfold computeExpected
  rw [h]

theorem computeExpected_ok (m : RuleMap) (banned : Finset ℤ) (num : ℤ)
    (hm : MapBanSafe m) : ∃ s, computeExpected m banned num = Except.ok s := by
  have hr := render_of_not_banned _ (appliedValue_not_banned m num hm)
  rw [computeExpected_eq_ok m banned num _ hr]
  by_cases h : num ∈ banned
  · exact ⟨_, by rw [if_pos h]⟩
  · exact ⟨_, by rw [if_neg h]⟩

/-- The string carried by a successful evaluation, with a default for the
(unreachable) error case. -/
def okValue (e : Except ℤ String) : String :=
  match e with
  | Except.ok s => s
  | Except.error _ => ""

theorem mapM_ok_of (g : ℤ → ℤ × String) :
    ∀ (l : List ℤ) (f : ℤ → Except ℤ (ℤ × String)),
      (∀ x ∈ l, f x = Except.ok (g x)) → l.mapM f = Except.ok (l.map g) := by
  intro l
  induction l with
  | nil => intro f _; rfl
  | cons a t ih =>
    intro f h
    rw [List.mapM_cons, h a (List.mem_cons_self a t),
      ih f (fun x hx => h x (List.mem_cons_of_mem a hx))]
    rfl

theorem evaluate_ok (rules : List RuleEntry) (rs re : ℤ)
    (h : ∀ r ∈ rules, FactoryBuilt r) :
    evaluate rules rs re = Except.ok ((intRange rs re).map
      (fun num => (num,
        okValue (computeExpected (evalState rules rs re).1 (evalState rules rs re).2 num)))) := by
  unfold evaluate
  apply mapM_ok_of
  intro x hx
  obtain ⟨s, hs⟩ := computeExpected_ok (evalState rules rs re).1 (evalState rules rs re).2 x
    (evalState_banSafe rules rs re h)
  rw [hs]
  rfl

theorem lookup_map_self (g : ℤ → String) (n : ℤ) :
    ∀ l : List ℤ, n ∈ l → List.lookup n (l.map (fun x => (x, g x))) = some (g n) := by
  intro l
  induction l with
  | nil => intro h; cases h
  | cons a t ih =>
    intro h
    by_cases ha : n = a
    · subst ha
      simp [List.lookup]
    · have hmem : n ∈ t := by
        rcases List.mem_cons.mp h with h1 | h1
        · exact absurd h1 ha
        · exact h1
      have hba : (n == a) = false := by
        simp [ha]
      simp only [List.map_cons, List.lookup, hba]
      exact ih hmem

theorem evaluateAt_eq (rules : List RuleEntry) (rs re n : ℤ)
    (h : ∀ r ∈ rules, FactoryBuilt r) (hn : n ∈ intRange rs re) :
    evaluateAt rules rs re n =
      some (okValue (computeExpected (evalState rules rs re).1 (evalState rules rs re).2 n)) := by
  unfold evaluateAt
  rw [evaluate_ok rules rs re h]
  exact lookup_map_self _ n _ hn

theorem evaluateAt_banned_eq (rules : List RuleEntry) (rs re n : ℤ)
    (h : ∀ r ∈ rules, FactoryBuilt r) (hn : n ∈ intRange rs re)
    (hb : n ∈ bannedOf rules rs re) :
    evaluateAt rules rs re n =
      some (toString (nextNonBanned (bannedOf rules rs re) (n + 1))) := by
  rw [evaluateAt_eq rules rs re n h hn]
  have hr := render_of_not_banned _
    (appliedValue_not_banned (evalState rules rs re).1 n (evalState_banSafe rules rs re h))
  have hb2 : n ∈ (evalState rules rs re).2 := hb
  rw [computeExpected_eq_ok _ _ _ _ hr, if_pos hb2]
  rfl

theorem scan_spec (banned : Finset ℤ) :
    ∀ (fuel : Nat) (n : ℤ), (banned.filter (fun b => n ≤ b)).card < fuel →
      scan banned fuel n ∉ banned ∧ n ≤ scan banned fuel n ∧
        ∀ k, n ≤ k → k < scan banned fuel n → k ∈ banned := by
  intro fuel
  induction fuel with
  | zero => intro n h; exact absurd h (by simp)
  | succ f ih =>
    intro n h
    by_cases hn : n ∈ banned
    · have hsub : (banned.filter (fun b => n + 1 ≤ b)) ⊆ (banned.filter (fun b => n ≤ b)) := by
        intro x hx
        rw [Finset.mem_filter] at hx ⊢
        exact ⟨hx.1, by omega⟩
      have hss : (banned.filter (fun b => n + 1 ≤ b)) ⊂ (banned.filter (fun b => n ≤ b)) :=
        (Finset.ssubset_iff_of_subset hsub).mpr
          ⟨n, Finset.mem_filter.mpr ⟨hn, le_refl n⟩, by rw [Finset.mem_filter]; omega⟩
      have hlt : (banned.filter (fun b => n + 1 ≤ b)).card < f := by
        have := Finset.card_lt_card hss
        omega
      have hrec := ih (n + 1) hlt
      simp only [scan, if_pos hn]
      refine ⟨hrec.1, by have := hrec.2.1; omega, ?_⟩
      intro k hk1 hk2
      by_cases hkn : k = n
      · subst hkn
        exact hn
      · exact hrec.2.2 k (by omega) hk2
    · simp only [scan, if_neg hn]
      exact ⟨hn, le_refl n, fun k h1 h2 => absurd (lt_of_le_of_lt h1 h2) (lt_irrefl n)⟩

theorem nextNonBanned_spec (banned : Finset ℤ) (n : ℤ) :
    nextNonBanned banned n ∉ banned ∧ n ≤ nextNonBanned banned n ∧
      ∀ k, n ≤ k → k < nextNonBanned banned n → k ∈ banned := by
  apply scan_spec
  have := Finset.card_filter_le banned (fun b => n ≤ b)
  omega

theorem swap_paramInt_a (a b : ℤ) : (Rules.swap a b).paramInt "a" = a := rfl

theorem swap_paramInt_b (a b : ℤ) : (Rules.swap a b).paramInt "b" = b := rfl

theorem replace_paramInt_num (n : ℤ) (t : String) : (Rules.replace n t).paramInt "num" = n := rfl

theorem ban_mem_bannedNumbers (active : List RuleEntry) (n : ℤ) (h : Rules.ban n ∈ active) :
    n ∈ ConflictChecker.bannedNumbers active := by
  unfold ConflictChecker.bannedNumbers
  rw [List.mem_toFinset]
  exact List.mem_map.mpr ⟨Rules.ban n, List.mem_filter.mpr ⟨h, rfl⟩, rfl⟩

theorem check_dup (active : List RuleEntry) (proposed : RuleEntry)
    (h : ∃ e ∈ active, e.kind = proposed.kind ∧ e.params = proposed.params) :
    ∃ e ∈ active, e.kind = proposed.kind ∧ e.params = proposed.params ∧
      ConflictChecker.check active proposed = some (dupMessage e) := by
  obtain ⟨e0, he0, hk0, hp0⟩ := h
  have hsome :
      (active.find?
        (fun e => decide (e.kind = proposed.kind ∧ e.params = proposed.params))).isSome := by
    rw [List.find?_isSome]
    exact ⟨e0, he0, by simp [hk0, hp0]⟩
  obtain ⟨e, he⟩ := Option.isSome_iff_exists.mp hsome
  have hmem := List.mem_of_find?_eq_some he
  have hpe := List.find?_some he
  simp only [decide_eq_true_eq] at hpe
  refine ⟨e, hmem, hpe.1, hpe.2, ?_⟩
  unfold ConflictChecker.check
  rw [he]

theorem check_isSome_replace_banned (active : List RuleEntry) (n : ℤ) (t : String)
    (hb : n ∈ ConflictChecker.bannedNumbers active) :
    (ConflictChecker.check active (Rules.replace n t)).isSome = true := by
  unfold ConflictChecker.check
  cases hdup : active.find?
      (fun e => decide (e.kind = (Rules.replace n t).kind ∧
        e.params = (Rules.replace n t).params)) with
  | some e => rfl
  | none =>
    have hcond : (Rules.replace n t).kind = "replace" ∧
        (Rules.replace n t).paramInt "num" ∈ ConflictChecker.bannedNumbers active :=
      ⟨rfl, hb⟩
    rw [if_pos hcond]
    rfl

theorem check_isSome_swap_banned (active : List RuleEntry) (a b : ℤ)
    (hb : a ∈ ConflictChecker.bannedNumbers active ∨
      b ∈ ConflictChecker.bannedNumbers active) :
    (ConflictChecker.check active (Rules.swap a b)).isSome = true := by
  unfold ConflictChecker.check
  cases hdup : active.find?
      (fun e => decide (e.kind = (Rules.swap a b).kind ∧
        e.params = (Rules.swap a b).params)) with
  | some e => rfl
  | none =>
    have hrepl : ¬((Rules.swap a b).kind = "replace" ∧
        (Rules.swap a b).paramInt "num" ∈ ConflictChecker.bannedNumbers active) := by
      intro hh
      have hk : (Rules.swap a b).kind = "swap" := rfl
      rw [hk] at hh
      exact absurd hh.1 (by decide)
    rw [if_neg hrepl]
    by_cases ha : a ∈ ConflictChecker.bannedNumbers active
    · have hcond : (Rules.swap a b).kind = "swap" ∧
          (Rules.swap a b).paramInt "a" ∈ ConflictChecker.bannedNumbers active := ⟨rfl, ha⟩
      rw [if_pos hcond]
      rfl
    · have hbb : b ∈ ConflictChecker.bannedNumbers active := hb.resolve_left ha
      have hcond1 : ¬((Rules.swap a b).kind = "swap" ∧
          (Rules.swap a b).paramInt "a" ∈ ConflictChecker.bannedNumbers active) :=
        fun hh => ha hh.2
      have hcond2 : (Rules.swap a b).kind = "swap" ∧
          (Rules.swap a b).paramInt "b" ∈ ConflictChecker.bannedNumbers active := ⟨rfl, hbb⟩
      rw [if_neg hcond1, if_pos hcond2]
      rfl

theorem check_none_swap_clean (active : List RuleEntry) (a b : ℤ)
    (ha : a ∉ ConflictChecker.bannedNumbers active)
    (hbn : b ∉ ConflictChecker.bannedNumbers active)
    (hnd : ∀ e ∈ active, ¬(e.kind = (Rules.swap a b).kind ∧
      e.params = (Rules.swap a b).params)) :
    ConflictChecker.check active (Rules.swap a b) = none := by
  unfold ConflictChecker.check
  have hdup : active.find?
      (fun e => decide (e.kind = (Rules.swap a b).kind ∧
        e.params = (Rules.swap a b).params)) = none := by
    rw [List.find?_eq_none]
    intro e he
    simpa using hnd e he
  rw [hdup]
  have h1 : ¬((Rules.swap a b).kind = "replace" ∧
      (Rules.swap a b).paramInt "num" ∈ ConflictChecker.bannedNumbers active) := by
    intro hh
    have hk : (Rules.swap a b).kind = "swap" := rfl
    rw [hk] at hh
    exact absurd hh.1 (by decide)
  have h2 : ¬((Rules.swap a b).kind = "swap" ∧
      (Rules.swap a b).paramInt "a" ∈ ConflictChecker.bannedNumbers active) :=
    fun hh => ha hh.2
  have h3 : ¬((Rules.swap a b).kind = "swap" ∧
      (Rules.swap a b).paramInt "b" ∈ ConflictChecker.bannedNumbers active) :=
    fun hh => hbn hh.2
  rw [if_neg h1, if_neg h2, if_neg h3]

theorem mem_intRange (a b n : ℤ) : n ∈ intRange a b ↔ a ≤ n ∧ n ≤ b := by
  unfold intRange
  simp only [List.mem_map, List.mem_range]
  constructor
  · rintro ⟨i, hi, hv⟩
    have hv2 : a + (i : ℤ) = n := hv
    omega
  · intro h
    refine ⟨(n - a).toNat, ?_, ?_⟩
    · omega
    · show a + ((n - a).toNat : ℤ) = n
      omega

/-- C1 (counterexample): with the active collection
`[swap(6,9), divisible(3,"Fizz")]` and range `[1,9]`, `evaluate()[6]` is not
`"9"` as the claim states — the last rule in collection order that can affect
6 is the divisible rule, so the code renders `"Fizz"`. -/
theorem claim_C1_counterexample :
    evaluateAt ([Rules.swap 6 9] ++ oks [Rules.divisible 3 "Fizz"]) 1 9 6 ≠ some "9" := by
  decide

/-- C1 (amended): governing-rule precedence is last-writer-wins per number
over insertion order — the rule map assigns each number the last rule in
collection order that can affect it — and with the active collection
`[swap(6,9), divisible(3,"Fizz")]` and range `[1,9]`, `evaluate()[6] = "Fizz"`
(the divisible rule, being last, governs 6). -/
theorem claim_C1_amended :
    (∀ (rules : List RuleEntry) (rs re n : ℤ),
      ruleMapOf rules rs re n = governingRuleSpec rules rs re n) ∧
    evaluateAt ([Rules.swap 6 9] ++ oks [Rules.divisible 3 "Fizz"]) 1 9 6 = some "Fizz" :=
  ⟨ruleMap_lastWriterWins, by decide⟩

/-- C2: for every number of the range targeted by an active ban rule,
`evaluate()` maps it to the decimal string of the nearest following
non-banned number (scanning forward from the successor), discarding the
rule-map rendering; concretely with range `[1,10]` and `[ban(4)]`:
`evaluate()[4] = "5"`, `evaluate()[5] = "5"`, `evaluate()[3] = "3"`. -/
theorem claim_C2 :
    (∀ (rules : List RuleEntry) (rs re n : ℤ),
      (∀ r ∈ rules, FactoryBuilt r) →
      (∃ r ∈ rules, r.kind = "ban" ∧ r.paramInt "num" = n) →
      n ∈ intRange rs re →
      evaluateAt rules rs re n =
        some (toString (nextNonBanned (bannedOf rules rs re) (n + 1)))) ∧
    evaluateAt [Rules.ban 4] 1 10 4 = some "5" ∧
    evaluateAt [Rules.ban 4] 1 10 5 = some "5" ∧
    evaluateAt [Rules.ban 4] 1 10 3 = some "3" := by
  refine ⟨?_, by decide, by decide, by decide⟩
  intro rules rs re n hf hban hn
  exact evaluateAt_banned_eq rules rs re n hf hn ((mem_bannedOf_iff rules rs re n).mpr hban)

/-- C2 (witness): the general part of C2 applied to `[ban(4)]`, range
`[1,10]`, number 4. -/
theorem claim_C2_witness :
    evaluateAt [Rules.ban 4] 1 10 4 =
      some (toString (nextNonBanned (bannedOf [Rules.ban 4] 1 10) (4 + 1))) :=
  claim_C2.1 [Rules.ban 4] 1 10 4
    (by
      intro r hr
      rw [List.mem_singleton] at hr
      subst hr
      exact Or.inr (Or.inr (Or.inl ⟨4, rfl⟩)))
    ⟨Rules.ban 4, List.mem_singleton.mpr rfl, rfl, rfl⟩
    (by decide)

/-- C3: `render()` fails with a `BannedNumberError` carrying the value's
number iff the banned flag is set; otherwise it returns the tags joined by
single spaces when non-empty, else the decimal string of the number. -/
theorem claim_C3 : ∀ rv : RuleValue,
    (rv.render = Except.error rv.number ↔ rv.banned = true) ∧
    (rv.banned = false →
      rv.render = Except.ok
        (if rv.tags ≠ [] then String.intercalate " " rv.tags else toString rv.number)) := by
  intro rv
  unfold RuleValue.render
  cases hb : rv.banned <;> simp [hb]

/-- C3 (witness): C3 applied to the non-banned value with number 7 and tags
`["Fizz", "Buzz"]`. -/
theorem claim_C3_witness :
    RuleValue.banned { number := 7, tags := ["Fizz", "Buzz"], banned := false } = false ∧
    RuleValue.render { number := 7, tags := ["Fizz", "Buzz"], banned := false } =
      Except.ok "Fizz Buzz" :=
  ⟨rfl, ((claim_C3 { number := 7, tags := ["Fizz", "Buzz"], banned := false }).2 rfl).trans rfl⟩

/-- C4: a `replace` targeting a number banned by an active ban rule is
rejected; a `swap` either of whose endpoints is banned is rejected; a swap
with both endpoints non-banned (and no structural duplicate) passes the
check; concretely with `ban(6)` active, `swap(6,9)` is rejected and
`swap(5,9)` is accepted. -/
theorem claim_C4 :
    (∀ (active : List RuleEntry) (n : ℤ) (t : String), Rules.ban n ∈ active →
      (ConflictChecker.check active (Rules.replace n t)).isSome = true) ∧
    (∀ (active : List RuleEntry) (a b : ℤ),
      a ∈ ConflictChecker.bannedNumbers active ∨ b ∈ ConflictChecker.bannedNumbers active →
      (ConflictChecker.check active (Rules.swap a b)).isSome = true) ∧
    (∀ (active : List RuleEntry) (a b : ℤ),
      a ∉ ConflictChecker.bannedNumbers active → b ∉ ConflictChecker.bannedNumbers active →
      (∀ e ∈ active, ¬(e.kind = (Rules.swap a b).kind ∧ e.params = (Rules.swap a b).params)) →
      ConflictChecker.check active (Rules.swap a b) = none) ∧
    (ConflictChecker.check [Rules.ban 6] (Rules.swap 6 9)).isSome = true ∧
    ConflictChecker.check [Rules.ban 6] (Rules.swap 5 9) = none := by
  refine ⟨?_, check_isSome_swap_banned, check_none_swap_clean, by decide, by decide⟩
  intro active n t h
  exact check_isSome_replace_banned active n t (ban_mem_bannedNumbers active n h)

/-- C4 (witness): C4's replace part applied to `ban(4)` active and
`replace(4, "x")`. -/
theorem claim_C4_witness :
    Rules.ban 4 ∈ [Rules.ban 4] ∧
    (ConflictChecker.check [Rules.ban 4] (Rules.replace 4 "x")).isSome = true :=
  ⟨List.mem_singleton.mpr rfl, claim_C4.1 [Rules.ban 4] 4 "x" (List.mem_singleton.mpr rfl)⟩

/-- C5: whenever an active rule has the same kind and structurally equal
params as the candidate, the conflict check rejects the candidate with a
message naming the existing rule; in particular adding the same
(kind, params) combination twice is always rejected. -/
theorem claim_C5 :
    (∀ (active : List RuleEntry) (proposed : RuleEntry),
      (∃ e ∈ active, e.kind = proposed.kind ∧ e.params = proposed.params) →
      ∃ e ∈ active, e.kind = proposed.kind ∧ e.params = proposed.params ∧
        ConflictChecker.check active proposed = some (dupMessage e)) ∧
    (∀ (rules : List RuleEntry) (entry : RuleEntry),
      (try_add (try_add rules entry).2 entry).1 = false) := by
  refine ⟨check_dup, ?_⟩
  intro rules entry
  cases h : ConflictChecker.check rules entry with
  | some msg =>
    simp only [try_add, h]
  | none =>
    simp only [try_add, h]
    obtain ⟨e, he, hk, hp, hc⟩ := check_dup (rules ++ [entry]) entry
      ⟨entry, by simp, rfl, rfl⟩
    simp only [hc]

/-- C5 (witness): C5's duplicate part applied to the collection `[ban(4)]`
and the identical candidate `ban(4)`. -/
theorem claim_C5_witness :
    (∃ e ∈ [Rules.ban 4], e.kind = (Rules.ban 4).kind ∧ e.params = (Rules.ban 4).params) ∧
    ∃ e ∈ [Rules.ban 4], e.kind = (Rules.ban 4).kind ∧ e.params = (Rules.ban 4).params ∧
      ConflictChecker.check [Rules.ban 4] (Rules.ban 4) = some (dupMessage e) :=
  ⟨⟨Rules.ban 4, List.mem_singleton.mpr rfl, rfl, rfl⟩,
    claim_C5.1 [Rules.ban 4] (Rules.ban 4) ⟨Rules.ban 4, List.mem_singleton.mpr rfl, rfl, rfl⟩⟩

/-- C6: for a collection built from the six factory constructors, evaluation
never raises a `BannedNumberError`: ban rules are kept out of the rule map
and no non-ban transformation sets the banned flag, so the banned branch of
`render()` is unreachable. -/
theorem claim_C6 : ∀ (rules : List RuleEntry) (rs re : ℤ),
    (∀ r ∈ rules, FactoryBuilt r) → exceptOk (evaluate rules rs re) = true := by
  intro rules rs re h
  rw [evaluate_ok rules rs re h]
  rfl

/-- C6 (witness): C6 applied to `[swap(6,9), ban(4)]` over range `[1,10]`. -/
theorem claim_C6_witness :
    exceptOk (evaluate [Rules.swap 6 9, Rules.ban 4] 1 10) = true :=
  claim_C6 [Rules.swap 6 9, Rules.ban 4] 1 10
    (by
      intro r hr
      rcases List.mem_cons.mp hr with h1 | h1
      · subst h1
        exact Or.inl ⟨6, 9, rfl⟩
      · rw [List.mem_singleton] at h1
        subst h1
        exact Or.inr (Or.inr (Or.inl ⟨4, rfl⟩)))

/-- C7: `divisible(0, text)` always fails at construction time with the
zero-divisor error, before any conflict check; for a non-zero divisor the
construction succeeds and the transformation tags exactly the multiples of
the divisor. -/
theorem claim_C7 :
    (∀ t : String, Rules.divisible 0 t = Except.error "Divisor cannot be zero.") ∧
    (∀ (d : ℤ) (t : String), d ≠ 0 → ∃ r : RuleEntry,
      Rules.divisible d t = Except.ok r ∧ r.kind = "divisible" ∧
      ∀ rv : RuleValue, (r.fn rv).tags =
        if rv.number % d = 0 then rv.tags ++ [t] else rv.tags) := by
  constructor
  · intro t
    rfl
  · intro d t hd
    refine ⟨{ kind := "divisible"
              params := [("divisor", ParamVal.int d), ("text", ParamVal.str t)]
              description := s!"Divisible by {d} → {t}"
              fn := fun rv => if rv.number % d = 0 then rv.tag t else rv }, ?_, rfl, ?_⟩
    · unfold Rules.divisible
      rw [if_neg hd]
    · intro rv
      show (if rv.number % d = 0 then rv.tag t else rv).tags =
        if rv.number % d = 0 then rv.tags ++ [t] else rv.tags
      by_cases hc : rv.number % d = 0
      · rw [if_pos hc, if_pos hc]
        rfl
      · rw [if_neg hc, if_neg hc]

/-- C7 (witness): C7's non-zero part applied to `divisible(3, "Fizz")`. -/
theorem claim_C7_witness :
    (3 : ℤ) ≠ 0 ∧ ∃ r : RuleEntry,
      Rules.divisible 3 "Fizz" = Except.ok r ∧ r.kind = "divisible" ∧
      ∀ rv : RuleValue, (r.fn rv).tags =
        if rv.number % 3 = 0 then rv.tags ++ ["Fizz"] else rv.tags :=
  ⟨by decide, claim_C7.2 3 "Fizz" (by decide)⟩

/-- C8: for distinct `a`, `b`, the `swap(a,b)` transformation on a fresh
value for `a` renders the decimal string of `b`, and its number is `b` after
a single application — only one substitution happens per application. -/
theorem claim_C8 : ∀ a b : ℤ, a ≠ b →
    ((Rules.swap a b).fn (freshValue a)).render = Except.ok (toString b) ∧
    ((Rules.swap a b).fn (freshValue a)).number = b := by
  intro a b hab
  have h1 : (Rules.swap a b).fn (freshValue a) =
      { number := b, tags := [], banned := false } := by
    simp [Rules.swap, freshValue]
  rw [h1]
  exact ⟨rfl, rfl⟩

/-- C8 (witness): C8 applied to `swap(6, 9)` on a fresh value for 6. -/
theorem claim_C8_witness :
    (6 : ℤ) ≠ 9 ∧
    (((Rules.swap 6 9).fn (freshValue 6)).render = Except.ok (toString (9 : ℤ)) ∧
      ((Rules.swap 6 9).fn (freshValue 6)).number = 9) :=
  ⟨by decide, claim_C8 6 9 (by decide)⟩

/-- C9: `removeRule(index)` removes and returns the rule at 1-based position
`index` and fails whenever the index is outside `1..count`, including on the
empty collection. -/
theorem claim_C9 : ∀ (rules : List RuleEntry) (i : ℤ),
    (1 ≤ i → i ≤ (rules.length : ℤ) →
      ∃ r, rules[(i - 1).toNat]? = some r ∧
        remove_rule rules i = some (r, rules.eraseIdx (i - 1).toNat)) ∧
    (¬(1 ≤ i ∧ i ≤ (rules.length : ℤ)) → remove_rule rules i = none) ∧
    (rules = [] → remove_rule rules i = none) := by
  intro rules i
  refine ⟨?_, ?_, ?_⟩
  · intro h1 h2
    have hlt : (i - 1).toNat < rules.length := by omega
    refine ⟨rules[(i - 1).toNat], List.getElem?_eq_getElem hlt, ?_⟩
    unfold remove_rule
    rw [if_pos ⟨h1, h2⟩, List.getElem?_eq_getElem hlt]
  · intro h
    unfold remove_rule
    rw [if_neg h]
  · intro h
    subst h
    unfold remove_rule
    rw [if_neg (by intro hh; simp at hh; omega)]

/-- C9 (witness): C9's in-range part applied to the one-rule collection
`[ban(4)]` at index 1. -/
theorem claim_C9_witness :
    ((1 : ℤ) ≤ 1 ∧ (1 : ℤ) ≤ ([Rules.ban 4].length : ℤ)) ∧
    ∃ r, [Rules.ban 4][((1 : ℤ) - 1).toNat]? = some r ∧
      remove_rule [Rules.ban 4] 1 = some (r, [Rules.ban 4].eraseIdx ((1 : ℤ) - 1).toNat) :=
  ⟨⟨by decide, by decide⟩, (claim_C9 [Rules.ban 4] 1).1 (by decide) (by decide)⟩

/-- C10: the forward scan of the ban cascade terminates on the first
non-banned number past the start (everything strictly between is banned),
and the resulting label can lie outside the configured range: a banned range
end is mapped past the end, e.g. range `[1,10]` with `[ban(10)]` gives
`evaluate()[10] = "11"`. -/
theorem claim_C10 :
    (∀ (banned : Finset ℤ) (n : ℤ),
      nextNonBanned banned (n + 1) ∉ banned ∧ n < nextNonBanned banned (n + 1) ∧
        ∀ k, n + 1 ≤ k → k < nextNonBanned banned (n + 1) → k ∈ banned) ∧
    (∀ (rules : List RuleEntry) (rs re : ℤ),
      (∀ r ∈ rules, FactoryBuilt r) → rs ≤ re →
      re ∈ bannedOf rules rs re →
      ∃ m : ℤ, re < m ∧ evaluateAt rules rs re re = some (toString m)) ∧
    evaluateAt [Rules.ban 10] 1 10 10 = some "11" := by
  refine ⟨?_, ?_, by decide⟩
  · intro banned n
    have h := nextNonBanned_spec banned (n + 1)
    exact ⟨h.1, by have := h.2.1; omega, h.2.2⟩
  · intro rules rs re hf hle hb
    have hmem := (mem_intRange rs re re).mpr ⟨hle, le_refl re⟩
    refine ⟨nextNonBanned (bannedOf rules rs re) (re + 1), ?_, ?_⟩
    · have h := nextNonBanned_spec (bannedOf rules rs re) (re + 1)
      have := h.2.1
      omega
    · exact evaluateAt_banned_eq rules rs re re hf hmem hb

/-- C10 (witness): C10's banned-range-end part applied to `[ban(10)]` over
range `[1,10]`. -/
theorem claim_C10_witness :
    (1 : ℤ) ≤ 10 ∧
    ∃ m : ℤ, (10 : ℤ) < m ∧ evaluateAt [Rules.ban 10] 1 10 10 = some (toString m) :=
  ⟨by decide, claim_C10.2.1 [Rules.ban 10] 1 10
    (by
      intro r hr
      rw [List.mem_singleton] at hr
      subst hr
      exact Or.inr (Or.inr (Or.inl ⟨10, rfl⟩)))
    (by decide)
    (by decide)⟩
